import Mathlib

/-!
Verification of the query-safety and metadata-synthesis pipeline of the
powerbi-chat-semantic-model repository.

The JavaScript sources are shallowly embedded as executable Lean
definitions:

* `src/dax-validator.js`  — `DAXValidator.validate`, `validateResults`,
  `sanitize` (regex tests are embedded as decidable scanners over the
  character list of the query; ASCII case mapping models JavaScript
  `toUpperCase` / the `i` regex flag).
* `src/utils.js`          — `escapeXml`, `unescapeXml` (the sequential
  global `String.replace` passes are embedded by `replaceStr`).
* `src/xmla-connection.js` — `parseXMLResponse` (over an XML document
  model), `executeDMVQuery`, `getRelationships`, `executeDAX`, and the
  pure synthesis part of `getSemanticModelMetadata`.  Network sends are
  abstracted as an explicit outcome / oracle argument; JavaScript
  `undefined` is modelled by `Option`, and JavaScript object field
  update by in-place association-list update (`objSet`).
-/

namespace PBI

/-- JavaScript `\s` / `String.prototype.trim` whitespace (the ASCII part,
plus NBSP; the exotic Unicode space characters are not needed by any
claim). -/
def isWS (c : Char) : Bool :=
  c = ' ' || c = '\t' || c = '\n' || c = '\r' ||
  c = Char.ofNat 11 || c = Char.ofNat 12 || c = Char.ofNat 160

/-- `String.prototype.trim` on a character list. -/
def jsTrim (s : List Char) : List Char :=
  ((s.dropWhile isWS).reverse.dropWhile isWS).reverse

/-- Collapse every run of consecutive semicolons to a single one:
JavaScript `replace(/;+/g, ';')`. -/
def collapseSemis : List Char → List Char
  | [] => []
  | [c] => [c]
  | a :: b :: rest =>
    if a = ';' && b = ';' then collapseSemis (b :: rest)
    else a :: collapseSemis (b :: rest)

/-- JavaScript `replace(/;+\s*$/g, '')`: remove the last run of
semicolons together with the whitespace that follows it, when only
whitespace follows that run. -/
def removeTrailingSemis (s : List Char) : List Char :=
  let r := s.reverse
  let rest := r.dropWhile isWS
  if rest.head? = some ';' then (rest.dropWhile (fun c => c = ';')).reverse
  else s

/-- `DAXValidator.sanitize` (src/dax-validator.js:128-141): guard on a
falsy argument, trim, collapse semicolon runs, strip the trailing run. -/
def sanitize (daxQuery : String) : String :=
  if daxQuery = "" then ""
  else ⟨removeTrailingSemis (collapseSemis (jsTrim daxQuery.data))⟩

/-- No two adjacent semicolons occur in the list. -/
def noAdjSemis : List Char → Bool
  | [] => true
  | [_] => true
  | a :: b :: rest => !(a = ';' && b = ';') && noAdjSemis (b :: rest)

/-- Case-insensitive literal prefix match (a regex literal under the `i`
flag, ASCII case mapping). -/
def prefixCI : List Char → List Char → Bool
  | [], _ => true
  | _ :: _, [] => false
  | k :: ks, c :: cs => (k.toUpper = c.toUpper) && prefixCI ks cs

/-- An unanchored regex matches iff it matches at some position: test the
predicate at every suffix. -/
def scanAny (p : List Char → Bool) : List Char → Bool
  | [] => p []
  | c :: rest => p (c :: rest) || scanAny p rest

/-- Match of `TOPN\s*\(` at the current position. -/
def topnAt (s : List Char) : Bool :=
  prefixCI "TOPN".data s &&
    match (s.drop 4).dropWhile isWS with
    | '(' :: _ => true
    | _ => false

/-- Match of `TOP\s+\d+` at the current position. -/
def topNumAt (s : List Char) : Bool :=
  prefixCI "TOP".data s &&
    (let rest := s.drop 3
     let wsn := rest.takeWhile isWS
     wsn.length > 0 &&
       match rest.drop wsn.length with
       | d :: _ => d.isDigit
       | [] => false)

/-- `/TOPN\s*\(/i.test(q) || /TOP\s+\d+/i.test(q)` (src/dax-validator.js:64). -/
def hasTopNTest (s : String) : Bool :=
  scanAny topnAt s.data || scanAny topNumAt s.data

/-- Anchored `/^\s*KW/i` test. -/
def startsWithCI (kw : String) (s : String) : Bool :=
  prefixCI kw.data (s.data.dropWhile isWS)

/-- JavaScript `String.prototype.includes` (case-sensitive substring). -/
def strIncludes (s sub : String) : Bool :=
  scanAny (fun t => sub.data.isPrefixOf t) s.data

/-- JavaScript `toUpperCase`, per character (ASCII). -/
def upperS (s : String) : String := ⟨s.data.map Char.toUpper⟩

/-- JavaScript `\w` word character. -/
def isWordChar (c : Char) : Bool := c.isAlpha || c.isDigit || c = '_'

/-- Match of `\bKW\b` (case-insensitive) at the current position, given the
character just before that position. -/
def wordBoundaryAt (kw : List Char) (prev : Option Char) (s : List Char) : Bool :=
  (match prev with | none => true | some pc => !isWordChar pc) &&
  prefixCI kw s &&
  (match s.drop kw.length with
   | [] => true
   | c :: _ => !isWordChar c)

/-- Scan for `\bKW\b`, threading the previous character. -/
def wbScan (kw : List Char) (prev : Option Char) : List Char → Bool
  | [] => wordBoundaryAt kw prev []
  | c :: rest => wordBoundaryAt kw prev (c :: rest) || wbScan kw (some c) rest

/-- `new RegExp('\\b' + kw + '\\b', 'i').test(s)` (src/dax-validator.js:80). -/
def wordBoundaryTest (kw : String) (s : String) : Bool :=
  wbScan kw.data none s.data

/-- Tail of the nested-function regex: `[^)]*KW` — consume non-`)`
characters until the function name matches again. -/
def nestedTailTest (f : List Char) : List Char → Bool
  | [] => false
  | c :: rest => prefixCI f (c :: rest) || (!(c = ')') && nestedTailTest f rest)

/-- Match of `` `KW\s*\([^)]*KW` `` at the current position. -/
def nestedAt (f : List Char) (s : List Char) : Bool :=
  prefixCI f s &&
    match (s.drop f.length).dropWhile isWS with
    | '(' :: rest2 => nestedTailTest f rest2
    | _ => false

/-- The self-nesting test built per dangerous function
(src/dax-validator.js:54). -/
def nestedFuncTest (f : String) (s : String) : Bool :=
  scanAny (nestedAt f.data) s.data

/-- Match of `KW1\s*\(\s*KW2` at the current position (shape of all three
configured blocked patterns, src/unnamed config `BLOCKED_PATTERNS`). -/
def comboAt (kw1 kw2 : List Char) (s : List Char) : Bool :=
  prefixCI kw1 s &&
    match (s.drop kw1.length).dropWhile isWS with
    | '(' :: r => prefixCI kw2 (r.dropWhile isWS)
    | _ => false

/-- `/KW1\s*\(\s*KW2/gi.test(s)` for a configured blocked pattern. -/
def comboTest (kw1 kw2 : String) (s : String) : Bool :=
  scanAny (comboAt kw1.data kw2.data) s.data

/-- The configuration slice `CONFIG.QUERY` consumed by `DAXValidator`:
each blocked pattern is its test together with its `source` text. -/
structure ValidatorConfig where
  maxRows : Nat
  warningThreshold : Nat
  blockedPatterns : List ((String → Bool) × String)
  dangerousFunctions : List String

/-- The `CONFIG.QUERY` defaults from the configuration file. -/
def defaultConfig : ValidatorConfig where
  maxRows := 10000
  warningThreshold := 1000
  blockedPatterns :=
    [(comboTest "CROSSJOIN" "ALL", "CROSSJOIN\\s*\\(\\s*ALL"),
     (comboTest "GENERATE" "GENERATE", "GENERATE\\s*\\(\\s*GENERATE"),
     (comboTest "ADDCOLUMNS" "ADDCOLUMNS", "ADDCOLUMNS\\s*\\(\\s*ADDCOLUMNS")]
  dangerousFunctions := ["UNION", "GENERATE", "NATURALLEFTOUTERJOIN", "NATURALINNERJOIN"]

/-- The result object of `DAXValidator.validate`.  A `none` for
`modifiedQuery` models a non-string input value echoed back. -/
structure ValidationResult where
  isValid : Bool
  warnings : List String
  errors : List String
  modified : Bool
  modifiedQuery : Option String
deriving Repr, DecidableEq

/-- The SQL keywords checked at src/dax-validator.js:78. -/
def sqlKeywords : List String := ["FROM", "WHERE", "JOIN", "GROUP BY", "HAVING"]

/-- `DAXValidator.validate` (src/dax-validator.js:20-95).  The input is
`none` for a non-string value; the empty string is falsy in JavaScript,
so it takes the same early return. -/
def validate (cfg : ValidatorConfig) (daxQuery : Option String) : ValidationResult :=
  match daxQuery with
  | none =>
    { isValid := false, warnings := [], errors := ["Query is empty or invalid"],
      modified := false, modifiedQuery := none }
  | some q =>
    if q = "" then
      { isValid := false, warnings := [], errors := ["Query is empty or invalid"],
        modified := false, modifiedQuery := some q }
    else
      let trimmed : String := ⟨jsTrim q.data⟩
      if trimmed = "" then
        { isValid := false, warnings := [], errors := ["Query cannot be empty"],
          modified := false, modifiedQuery := some q }
      else
        let blockedErrs := cfg.blockedPatterns.filterMap fun p =>
          if p.1 trimmed then
            some ("Query contains blocked pattern: " ++ p.2 ++ ". This may cause performance issues.")
          else none
        let nestedWarns := cfg.dangerousFunctions.filterMap fun f =>
          if nestedFuncTest f trimmed then
            some ("Nested " ++ f ++ " function detected. This may be slow on large datasets.")
          else none
        let hasEvaluate := startsWithCI "EVALUATE" trimmed
        let hasTopN := hasTopNTest trimmed
        let rowLimitWarns :=
          if !hasTopN && !hasEvaluate then
            ["Query does not have a row limit. Consider adding TOPN(" ++
              toString cfg.warningThreshold ++ ", ...) to limit results."]
          else []
        let selectErrs :=
          if startsWithCI "SELECT" trimmed then
            ["Invalid syntax: DAX queries use EVALUATE, not SELECT. This tool automatically adds EVALUATE for you."]
          else []
        let sqlWarns := sqlKeywords.filterMap fun kw =>
          if wordBoundaryTest kw trimmed && !(strIncludes (upperS trimmed) "FILTER") then
            some ("Found SQL keyword '" ++ kw ++ "'. Make sure you're using DAX syntax, not SQL.")
          else none
        let isValid := blockedErrs.isEmpty && selectErrs.isEmpty
        let doModify := !hasTopN && !hasEvaluate && isValid && !(strIncludes (upperS trimmed) "$SYSTEM")
        { isValid := isValid
          warnings := nestedWarns ++ rowLimitWarns ++ sqlWarns ++
            (if doModify then
              ["Automatically limited to " ++ toString cfg.maxRows ++ " rows for safety."]
            else [])
          errors := blockedErrs ++ selectErrs
          modified := doModify
          modifiedQuery :=
            if doModify then
              some ("TOPN(" ++ toString cfg.maxRows ++ ", " ++ trimmed ++ ")")
            else some q }

/-- The result object of `DAXValidator.validateResults`. -/
structure ResultsValidation where
  isValid : Bool
  warnings : List String
deriving Repr, DecidableEq

/-- `DAXValidator.validateResults` (src/dax-validator.js:102-121); the
input here is always an array. -/
def validateResults (cfg : ValidatorConfig) (results : List α) : ResultsValidation :=
  { isValid := true
    warnings :=
      (if results.length > cfg.warningThreshold then
        ["Query returned " ++ toString results.length ++
          " rows. Large result sets may impact performance."]
      else []) ++
      (if results.length ≥ cfg.maxRows then
        ["Result set was truncated at " ++ toString cfg.maxRows ++
          " rows. Use TOPN() or FILTER to reduce results."]
      else []) }

/-- A decoded result row: child tag name to text content, with JavaScript
object semantics (insertion order, in-place overwrite). -/
abbrev CatalogRow : Type := List (String × String)

/-- JavaScript `obj[k] = v` on the association-list model of an object:
overwrite in place, else append. -/
def objSet (m : List (String × α)) (k : String) (v : α) : List (String × α) :=
  match m with
  | [] => [(k, v)]
  | (k0, v0) :: rest => if k0 = k then (k0, v) :: rest else (k0, v0) :: objSet rest k v

/-- JavaScript `obj[k]` read: the stored value, or `undefined`. -/
def objGet (m : List (String × α)) (k : String) : Option α :=
  match m with
  | [] => none
  | (k0, v0) :: rest => if k0 = k then some v0 else objGet rest k

/-- The connection-liveness state of `XMLAConnection`
(src/xmla-connection.js:27-28); the timestamp is an abstract clock value. -/
structure ConnState where
  isConnected : Bool
  lastSuccessfulQuery : Option Nat
deriving Repr, DecidableEq

/-- `XMLAConnection.executeDMVQuery` (src/xmla-connection.js:58-67):
`outcome` is the result of `sendSOAPRequest` (send + decode), `now` the
clock at the success assignment.  A rejection propagates before the two
state assignments run, so the state is returned unchanged on error. -/
def executeDMVQuery (st : ConnState) (outcome : Except String (List CatalogRow)) (now : Nat) :
    Except String (List CatalogRow) × ConnState :=
  match outcome with
  | .error e => (.error e, st)
  | .ok rows => (.ok rows, { isConnected := true, lastSuccessfulQuery := some now })

/-- `XMLAConnection.getRelationships` (src/xmla-connection.js:238-255):
best-effort — a failed fetch degrades to the empty list.  `exec` is the
outcome of `executeDMVQuery` for the relationships DMV text. -/
def getRelationships (exec : Except String (List CatalogRow)) : List CatalogRow :=
  match exec with
  | .ok rows => rows
  | .error _ => []

/-- The object returned by `XMLAConnection.executeDAX`. -/
structure DAXResult where
  data : List CatalogRow
  warnings : List String
  rowCount : Nat
deriving Repr, DecidableEq

/-- `XMLAConnection.executeDAX` (src/xmla-connection.js:270-308) with the
validator configured.  `exec` abstracts `executeDMVQuery`; the second
component of the result is the list of query texts actually sent, so that
the early validation throw is observably send-free. -/
def executeDAX (cfg : ValidatorConfig) (exec : String → Except String (List CatalogRow))
    (daxQuery : String) : Except String DAXResult × List String :=
  let validation := validate cfg (some daxQuery)
  if validation.isValid = false then
    (.error ("Query validation failed: " ++ String.intercalate ", " validation.errors), [])
  else
    let rewritten := if validation.modified then validation.modifiedQuery.getD daxQuery else daxQuery
    let sanitized := sanitize rewritten
    let finalQuery := if startsWithCI "EVALUATE" sanitized then sanitized else "EVALUATE " ++ sanitized
    match exec finalQuery with
    | .error e => (.error e, [finalQuery])
    | .ok results =>
      let resultValidation := validateResults cfg results
      (.ok { data := results
             warnings := validation.warnings ++ resultValidation.warnings
             rowCount := results.length }, [finalQuery])

/-- The query text `executeDAX` sends for a query that passed validation:
the possibly-rewritten text, sanitized, with an EVALUATE marker ensured. -/
def finalQueryOf (cfg : ValidatorConfig) (daxQuery : String) : String :=
  let validation := validate cfg (some daxQuery)
  let sanitized := sanitize (if validation.modified then validation.modifiedQuery.getD daxQuery else daxQuery)
  if startsWithCI "EVALUATE" sanitized then sanitized else "EVALUATE " ++ sanitized

mutual
/-- A node of the parsed XML response: an element with a tag and child
nodes, or a text node. -/
inductive XmlNode where
  | text (s : String) : XmlNode
  | element (tag : String) (children : XmlForest) : XmlNode
deriving DecidableEq
/-- A sequence of sibling XML nodes (a separate inductive so that all
queries are structurally recursive and computable by the kernel). -/
inductive XmlForest where
  | nil : XmlForest
  | cons (head : XmlNode) (tail : XmlForest) : XmlForest
deriving DecidableEq
end

mutual
/-- `querySelector(tag)` rooted at a node: first matching element in
pre-order, the node itself included. -/
def findNode (tag : String) : XmlNode → Option XmlNode
  | .text _ => none
  | .element t cs =>
    if t = tag then some (.element t cs) else findInForest tag cs
/-- `querySelector(tag)` over a forest of siblings, in document order. -/
def findInForest (tag : String) : XmlForest → Option XmlNode
  | .nil => none
  | .cons n rest =>
    match findNode tag n with
    | some e => some e
    | none => findInForest tag rest
end

mutual
/-- DOM `textContent`: the concatenation of all descendant text, in
document order. -/
def textContent : XmlNode → String
  | .text s => s
  | .element _ cs => forestText cs
/-- `textContent` over a forest of siblings. -/
def forestText : XmlForest → String
  | .nil => ""
  | .cons n rest => textContent n ++ forestText rest
end

mutual
/-- `querySelectorAll(tag)` rooted at a node: every matching element in
pre-order. -/
def collectAll (tag : String) : XmlNode → List XmlNode
  | .text _ => []
  | .element t cs =>
    (if t = tag then [XmlNode.element t cs] else []) ++ collectInForest tag cs
/-- `querySelectorAll(tag)` over a forest of siblings. -/
def collectInForest (tag : String) : XmlForest → List XmlNode
  | .nil => []
  | .cons n rest => collectAll tag n ++ collectInForest tag rest
end

/-- DOM `Element.children`: the element children only, in order. -/
def elemChildren : XmlForest → List XmlNode
  | .nil => []
  | .cons n rest =>
    match n with
    | .text _ => elemChildren rest
    | .element t cs => XmlNode.element t cs :: elemChildren rest

/-- DOM `tagName` (text nodes never reach this in the decoder). -/
def tagName : XmlNode → String
  | .text _ => ""
  | .element t _ => t

/-- The children of the node as a forest. -/
def nodeChildren : XmlNode → XmlForest
  | .text _ => .nil
  | .element _ cs => cs

/-- One decoded `row` element: fold its element children into a JavaScript
object, `rowData[child.tagName] = child.textContent`
(src/xmla-connection.js:173-178). -/
def rowToObj (row : XmlNode) : CatalogRow :=
  (elemChildren (nodeChildren row)).foldl
    (fun acc child => objSet acc (tagName child) (textContent child)) []

/-- The fault's human-readable message:
`fault.querySelector('faultstring')?.textContent || 'Unknown SOAP fault'`
(src/xmla-connection.js:165). -/
def soapFaultMessage (fault : XmlNode) : String :=
  match findInForest "faultstring" (nodeChildren fault) with
  | none => "Unknown SOAP fault"
  | some fs => if textContent fs = "" then "Unknown SOAP fault" else textContent fs

/-- `XMLAConnection.parseXMLResponse` (src/xmla-connection.js:158-182):
fault detection first — `querySelector('Fault')`, with the fault message
from `faultstring` and a falsy fallback — then every `row` element decoded
in document order. -/
def parseXMLResponse (doc : XmlNode) : Except String (List CatalogRow) :=
  match findNode "Fault" doc with
  | some fault => .error ("SOAP Fault: " ++ soapFaultMessage fault)
  | none => .ok ((collectAll "row" doc).map rowToObj)

/-- Whether any element of the document carries the given tag (the
specification-side fault-indicator predicate, compared with the decoder
behaviour in the claims). -/
def hasElem (tag : String) (doc : XmlNode) : Bool :=
  (findNode tag doc).isSome

/-- JavaScript falsiness of an optional string: `undefined` and the empty
string are falsy. -/
def falsy : Option String → Bool
  | none => true
  | some s => s = ""

/-- JavaScript `a || b` on optional strings. -/
def jsOr (a b : Option String) : Option String :=
  if falsy a then b else a

/-- JavaScript `a || d` with a string literal default. -/
def jsOrD (a : Option String) (d : String) : String :=
  if falsy a then d else a.getD d

/-- JavaScript property-key coercion: indexing an object with `undefined`
reads the key `"undefined"`. -/
def keyOf : Option String → String
  | none => "undefined"
  | some s => s

/-- Field read on a catalog row (`row.Field`, `undefined` when absent). -/
def rowGet (r : CatalogRow) (k : String) : Option String :=
  objGet r k

/-- `table.Name || table.ExplicitName || table.InferredName`
(src/xmla-connection.js:329). -/
def tableNameOf (r : CatalogRow) : Option String :=
  jsOr (jsOr (rowGet r "Name") (rowGet r "ExplicitName")) (rowGet r "InferredName")

/-- `col.ExplicitName || col.InferredName` (src/xmla-connection.js:339). -/
def colNameOf (r : CatalogRow) : Option String :=
  jsOr (rowGet r "ExplicitName") (rowGet r "InferredName")

/-- The id-to-name lookup built from catalog rows
(src/xmla-connection.js:326-343): keep a row's mapping only when both its
`ID` and its resolved name are truthy. -/
def buildIdToName (rows : List CatalogRow) (getName : CatalogRow → Option String) :
    List (String × String) :=
  rows.foldl
    (fun acc r =>
      let id := rowGet r "ID"
      let nm := getName r
      if !falsy id && !falsy nm then objSet acc (id.getD "") (nm.getD "") else acc)
    []

/-- A column descriptor `{name}` of the synthesized model. -/
structure ColumnDescr where
  name : String
deriving Repr, DecidableEq

/-- A table descriptor of the snapshot; the name is `undefined` when no
name field of the catalog row is truthy. -/
structure TableDescr where
  name : Option String
  columns : List ColumnDescr
deriving Repr, DecidableEq

/-- A measure descriptor of the snapshot. -/
structure MeasureDescr where
  name : Option String
  table : Option String
deriving Repr, DecidableEq

/-- A relationship descriptor of the snapshot with its two rendered
endpoints. -/
structure RelDescr where
  name : String
  from_ : String
  to_ : String
deriving Repr, DecidableEq

/-- The summary block of the snapshot (src/xmla-connection.js:428-434). -/
structure ModelSummary where
  tableCount : Nat
  measureCount : Nat
  relationshipCount : Nat
  totalColumns : Nat
  tablesWithSampleData : Nat
deriving Repr, DecidableEq

/-- The snapshot returned by `getSemanticModelMetadata`. -/
structure SemanticModelSnapshot where
  tables : List TableDescr
  measures : List MeasureDescr
  relationships : List RelDescr
  sampleData : List (String × List CatalogRow)
  summary : ModelSummary
deriving Repr, DecidableEq

/-- `columnsByTable` accumulation (src/xmla-connection.js:346-361): append
the column `{name}` under the resolved table name, creating the bucket on
first use. -/
def objAppend (m : List (String × List ColumnDescr)) (k : String) (v : ColumnDescr) :
    List (String × List ColumnDescr) :=
  match m with
  | [] => [(k, [v])]
  | (k0, vs) :: rest => if k0 = k then (k0, vs ++ [v]) :: rest else (k0, vs) :: objAppend rest k v

/-- One synthesized relationship before filtering
(src/xmla-connection.js:379-389). -/
def buildRel (tmap cmap : List (String × String)) (r : CatalogRow) : RelDescr :=
  let fromTable := jsOrD (objGet tmap (keyOf (rowGet r "FromTableID"))) "Unknown"
  let toTable := jsOrD (objGet tmap (keyOf (rowGet r "ToTableID"))) "Unknown"
  let fromColumn := jsOrD (objGet cmap (keyOf (rowGet r "FromColumnID"))) "Unknown"
  let toColumn := jsOrD (objGet cmap (keyOf (rowGet r "ToColumnID"))) "Unknown"
  { name := jsOrD (rowGet r "RelationshipName") ""
    from_ := fromTable ++ "[" ++ fromColumn ++ "]"
    to_ := toTable ++ "[" ++ toColumn ++ "]" }

/-- The filter of src/xmla-connection.js:390: drop a relationship whose
rendered endpoints contain the placeholder. -/
def relKeep (rel : RelDescr) : Bool :=
  !(strIncludes rel.from_ "Unknown") && !(strIncludes rel.to_ "Unknown")

/-- The pure synthesis part of `XMLAConnection.getSemanticModelMetadata`
(src/xmla-connection.js:312-440).  The four catalog fetches are given as
already-degraded row lists; `fetchSample` abstracts `getSampleData`
(best-effort, yields `[]` on failure). -/
def getSemanticModelMetadata (tablesResult columnsResult measuresResult relationshipsResult : List CatalogRow)
    (fetchSampleData : Bool) (fetchSample : Option String → List CatalogRow) :
    SemanticModelSnapshot :=
  let tableIdToName := buildIdToName tablesResult tableNameOf
  let columnIdToName := buildIdToName columnsResult colNameOf
  let columnsByTable := columnsResult.foldl
    (fun acc col =>
      let tblName := objGet tableIdToName (keyOf (rowGet col "TableID"))
      let colName := colNameOf col
      if !falsy tblName && !falsy colName then
        objAppend acc (keyOf tblName) { name := colName.getD "" }
      else acc)
    []
  let tables := tablesResult.map fun t =>
    let tname := tableNameOf t
    { name := tname, columns := (objGet columnsByTable (keyOf tname)).getD [] : TableDescr }
  let measures := measuresResult.map fun m =>
    { name := jsOr (jsOr (rowGet m "Name") (rowGet m "ExplicitName")) (rowGet m "InferredName")
      table := objGet tableIdToName (keyOf (rowGet m "TableID")) : MeasureDescr }
  let relationships := (relationshipsResult.map (buildRel tableIdToName columnIdToName)).filter relKeep
  let sampleData :=
    if fetchSampleData && tables.length > 0 then
      let tablesToSample := (tables.filter fun t => t.columns.length > 0).take 10
      (tablesToSample.map fun t => (t.name, fetchSample t.name)).foldl
        (fun acc pr => if pr.2.length > 0 then objSet acc (keyOf pr.1) pr.2 else acc) []
    else []
  { tables := tables
    measures := measures
    relationships := relationships
    sampleData := sampleData
    summary :=
      { tableCount := tables.length
        measureCount := measures.length
        relationshipCount := relationships.length
        totalColumns := columnsResult.length
        tablesWithSampleData := sampleData.length } }

/-- JavaScript `String.prototype.replace` with a global literal pattern:
replace every non-overlapping occurrence, scanning left to right, without
re-scanning replacements. -/
def replaceStr (pat repl : List Char) : List Char → List Char
  | [] => []
  | c :: rest =>
    if pat.isPrefixOf (c :: rest) then
      repl ++ replaceStr pat repl (rest.drop (pat.length - 1))
    else
      c :: replaceStr pat repl rest
termination_by s => s.length
decreasing_by
  · simp only [List.length_drop, List.length_cons]
    omega
  · simp

/-- The character list of the entity text `&amp;`. -/
def entAmp : List Char := ['&', 'a', 'm', 'p', ';']
/-- The character list of the entity text `&lt;`. -/
def entLt : List Char := ['&', 'l', 't', ';']
/-- The character list of the entity text `&gt;`. -/
def entGt : List Char := ['&', 'g', 't', ';']
/-- The character list of the entity text `&quot;`. -/
def entQuot : List Char := ['&', 'q', 'u', 'o', 't', ';']
/-- The character list of the entity text `&apos;`. -/
def entApos : List Char := ['&', 'a', 'p', 'o', 's', ';']

/-- The five entity lists are exactly the characters of the literal
replacement strings of src/utils.js. -/
theorem ent_data : entAmp = "&amp;".data ∧ entLt = "&lt;".data ∧ entGt = "&gt;".data ∧
    entQuot = "&quot;".data ∧ entApos = "&apos;".data :=
  ⟨rfl, rfl, rfl, rfl, rfl⟩

/-- The five replace passes of `escapeXml` on the character list. -/
def escChars (s : List Char) : List Char :=
  replaceStr ['\''] entApos
    (replaceStr ['"'] entQuot
      (replaceStr ['>'] entGt
        (replaceStr ['<'] entLt
          (replaceStr ['&'] entAmp s))))

/-- `escapeXml` (src/utils.js:11-19): guard on a falsy argument, then the
five sequential global replaces, ampersand first. -/
def escapeXml (s : String) : String :=
  if s = "" then "" else ⟨escChars s.data⟩

/-- The five replace passes of `unescapeXml` on the character list. -/
def unescChars (s : List Char) : List Char :=
  replaceStr entAmp ['&']
    (replaceStr entLt ['<']
      (replaceStr entGt ['>']
        (replaceStr entQuot ['"']
          (replaceStr entApos ['\''] s))))

/-- `unescapeXml` (src/utils.js:26-34): guard on a falsy argument, then
the five reverse replaces, ampersand last. -/
def unescapeXml (s : String) : String :=
  if s = "" then "" else ⟨unescChars s.data⟩

/-- Per-character encoding after `k` of the five unescape passes have
run (stage 0 is the full escape encoding, stage 5 the identity). -/
def encUpto (k : Nat) (c : Char) : List Char :=
  if c = '&' then (if 5 ≤ k then [c] else entAmp)
  else if c = '<' then (if 4 ≤ k then [c] else entLt)
  else if c = '>' then (if 3 ≤ k then [c] else entGt)
  else if c = '"' then (if 2 ≤ k then [c] else entQuot)
  else if c = '\'' then (if 1 ≤ k then [c] else entApos)
  else [c]

/-- Concatenated per-character encoding of a list. -/
def encodeWith (f : Char → List Char) : List Char → List Char
  | [] => []
  | c :: rest => f c ++ encodeWith f rest

/-- C5: for every input value (a string or a non-string `none`), the
`ValidationResult` returned by `validate` satisfies the data-model
invariant — `isValid = false` implies `errors` is non-empty, and
`modified = false` implies `modifiedQuery` is the input, unchanged. -/
theorem validate_result_invariants (cfg : ValidatorConfig) (daxQuery : Option String) :
    ((validate cfg daxQuery).isValid = false → (validate cfg daxQuery).errors ≠ []) ∧
    ((validate cfg daxQuery).modified = false → (validate cfg daxQuery).modifiedQuery = daxQuery) := by
  cases daxQuery with
  | none => simp [validate]
  | some q =>
    by_cases hq : q = ""
    · simp [validate, hq]
    · by_cases ht : (⟨jsTrim q.data⟩ : String) = ""
      · simp [validate, hq, ht]
      · simp only [validate, hq, ht, if_neg, if_false, ite_false]
        constructor
        · intro h hc
          rcases List.append_eq_nil.mp hc with ⟨h1, h2⟩
          simp [h1, h2] at h
        · intro h
          simp [h]

/-- C5 witness: the invariants instantiated at the default configuration,
once at an invalid input and once at an unmodified one. -/
theorem validate_result_invariants_witness :
    (validate defaultConfig (some "SELECT 1")).errors ≠ [] ∧
    (validate defaultConfig (some "EVALUATE 'T'")).modifiedQuery = some "EVALUATE 'T'" := by
  exact ⟨(validate_result_invariants defaultConfig (some "SELECT 1")).1 (by decide),
         (validate_result_invariants defaultConfig (some "EVALUATE 'T'")).2 (by decide)⟩

/-- C9: `executeDMVQuery` is atomic with respect to connection state — a
failing send/decode leaves `isConnected` and `lastSuccessfulQuery`
exactly as they were (in particular it never sets `isConnected` to
false), and only a successful call sets `isConnected := true` and
refreshes the timestamp. -/
theorem executeDMVQuery_state_atomic (st : ConnState)
    (outcome : Except String (List CatalogRow)) (now : Nat) :
    (∀ e, outcome = .error e → (executeDMVQuery st outcome now).2 = st) ∧
    (∀ rows, outcome = .ok rows →
      (executeDMVQuery st outcome now).2.isConnected = true ∧
      (executeDMVQuery st outcome now).2.lastSuccessfulQuery = some now ∧
      (executeDMVQuery st outcome now).1 = .ok rows) := by
  constructor
  · intro e he; subst he; rfl
  · intro rows hr; subst hr; exact ⟨rfl, rfl, rfl⟩

/-- C9 witness: a failing send leaves a connected state connected with its
old timestamp; a successful send marks connected with the new clock. -/
theorem executeDMVQuery_state_atomic_witness :
    (executeDMVQuery ⟨true, some 5⟩ (.error "boom") 7).2 = ⟨true, some 5⟩ ∧
    (executeDMVQuery ⟨false, none⟩ (.ok [[("A", "1")]]) 7).2.isConnected = true := by
  exact ⟨(executeDMVQuery_state_atomic ⟨true, some 5⟩ (.error "boom") 7).1 "boom" rfl,
         ((executeDMVQuery_state_atomic ⟨false, none⟩ (.ok [[("A", "1")]]) 7).2 [[("A", "1")]] rfl).1⟩

/-- C2: with a validator configured, `executeDAX` validates first and, on
failure, throws the joined error messages without sending anything;
otherwise it sends exactly the sanitized, possibly-rewritten,
EVALUATE-prefixed text, and on success returns the data, the validation
warnings followed by the result-validation warnings, and the row count. -/
theorem executeDAX_pipeline (cfg : ValidatorConfig)
    (exec : String → Except String (List CatalogRow)) (q : String) :
    ((validate cfg (some q)).isValid = false →
      executeDAX cfg exec q =
        (.error ("Query validation failed: " ++
          String.intercalate ", " (validate cfg (some q)).errors), [])) ∧
    ((validate cfg (some q)).isValid = true →
      (executeDAX cfg exec q).2 = [finalQueryOf cfg q] ∧
      (∀ e, exec (finalQueryOf cfg q) = .error e → (executeDAX cfg exec q).1 = .error e) ∧
      (∀ rows, exec (finalQueryOf cfg q) = .ok rows →
        (executeDAX cfg exec q).1 = .ok
          { data := rows
            warnings := (validate cfg (some q)).warnings ++ (validateResults cfg rows).warnings
            rowCount := rows.length })) := by
  constructor
  · intro h
    simp [executeDAX, h]
  · intro h
    have hne : ¬ ((validate cfg (some q)).isValid = false) := by simp [h]
    refine ⟨?_, ?_, ?_⟩
    · simp only [executeDAX, finalQueryOf, if_neg hne]
      cases hex : exec (sanitize (if (validate cfg (some q)).modified then
          (validate cfg (some q)).modifiedQuery.getD q else q) |>
            fun s => if startsWithCI "EVALUATE" s then s else "EVALUATE " ++ s) <;>
        simp [hex]
    · intro e he
      simp only [executeDAX, finalQueryOf, if_neg hne] at he ⊢
      simp [he]
    · intro rows hr
      simp only [executeDAX, finalQueryOf, if_neg hne] at hr ⊢
      simp [hr]

/-- C2 witness: the invalid path at `"SELECT 1"` sends nothing; the valid
path at `"EVALUATE 'T'"` sends the final query and packages the result. -/
theorem executeDAX_pipeline_witness :
    executeDAX defaultConfig (fun _ => .ok [[("A", "1")]]) "SELECT 1" =
      (.error ("Query validation failed: " ++
        "Invalid syntax: DAX queries use EVALUATE, not SELECT. This tool automatically adds EVALUATE for you."), []) ∧
    (executeDAX defaultConfig (fun _ => .ok [[("A", "1")]]) "EVALUATE 'T'").1 =
      .ok { data := [[("A", "1")]], warnings := [], rowCount := 1 } := by
  constructor
  · exact ((executeDAX_pipeline defaultConfig (fun _ => .ok [[("A", "1")]]) "SELECT 1").1
      (by decide)).trans
      (congrArg (fun s => ((Except.error s : Except String DAXResult), ([] : List String)))
        (by decide))
  · exact (((executeDAX_pipeline defaultConfig (fun _ => .ok [[("A", "1")]]) "EVALUATE 'T'").2
      (by decide)).2.2 [[("A", "1")]] rfl).trans
      (congrArg Except.ok (by decide))

/-- C3: decoding an envelope with a fault indicator always raises with the
fault's human-readable message — row parsing never happens, even when row
elements are present — while a fault-free envelope decodes to the rows'
child mappings in document order. -/
theorem parseXMLResponse_fault_first (doc : XmlNode) :
    (∀ f, findNode "Fault" doc = some f →
      parseXMLResponse doc = .error ("SOAP Fault: " ++ soapFaultMessage f)) ∧
    (findNode "Fault" doc = none →
      parseXMLResponse doc = .ok ((collectAll "row" doc).map rowToObj)) := by
  constructor
  · intro f hf; simp [parseXMLResponse, hf]
  · intro hf; simp [parseXMLResponse, hf]

/-- An envelope carrying both a fault (message `boom`) and a row element. -/
def docFaultWithRow : XmlNode :=
  .element "Envelope"
    (.cons (.element "Fault" (.cons (.element "faultstring" (.cons (.text "boom") .nil)) .nil))
      (.cons (.element "row" (.cons (.element "A" (.cons (.text "1") .nil)) .nil)) .nil))

/-- A fault-free envelope with two rows of different child sets. -/
def docTwoRows : XmlNode :=
  .element "Envelope"
    (.cons (.element "row"
        (.cons (.element "A" (.cons (.text "1") .nil))
          (.cons (.element "B" (.cons (.text "2") .nil)) .nil)))
      (.cons (.element "row" (.cons (.element "C" (.cons (.text "3") .nil)) .nil)) .nil))

/-- C3 witness: the fault raises even though a row is present, and the
heterogeneous fault-free envelope decodes to two mappings in order. -/
theorem parseXMLResponse_fault_first_witness :
    parseXMLResponse docFaultWithRow = .error "SOAP Fault: boom" ∧
    parseXMLResponse docTwoRows = .ok [[("A", "1"), ("B", "2")], [("C", "3")]] := by
  constructor
  · exact ((parseXMLResponse_fault_first docFaultWithRow).1
      (.element "Fault" (.cons (.element "faultstring" (.cons (.text "boom") .nil)) .nil))
      (by decide)).trans (congrArg Except.error (by decide))
  · exact ((parseXMLResponse_fault_first docTwoRows).2 (by decide)).trans
      (congrArg Except.ok (by decide))

/-- C10: a fault-free envelope with zero row elements decodes to the empty
sequence (no error), which is the same value the best-effort
relationships fetch returns when its query fails. -/
theorem parseXMLResponse_empty_rows (doc : XmlNode)
    (h1 : findNode "Fault" doc = none) (h2 : collectAll "row" doc = []) :
    parseXMLResponse doc = .ok [] ∧
    ∀ e : String, parseXMLResponse doc = .ok (getRelationships (.error e)) := by
  have hok : parseXMLResponse doc = .ok [] := by simp [parseXMLResponse, h1, h2]
  exact ⟨hok, fun e => by simpa [getRelationships] using hok⟩

/-- C10 witness: an empty envelope decodes to `[]`, indistinguishable from
the failed relationships probe. -/
theorem parseXMLResponse_empty_rows_witness :
    parseXMLResponse (.element "Envelope" .nil) = .ok [] ∧
    parseXMLResponse (.element "Envelope" .nil) = .ok (getRelationships (.error "boom")) := by
  exact ⟨(parseXMLResponse_empty_rows (.element "Envelope" .nil) (by decide) (by decide)).1,
         (parseXMLResponse_empty_rows (.element "Envelope" .nil) (by decide) (by decide)).2 "boom"⟩

theorem scanAny_of_suffix (p : List Char → Bool) (t pre : List Char) (hp : p t = true) :
    scanAny p (pre ++ t) = true := by
  induction pre with
  | nil =>
    cases t with
    | nil => simpa [scanAny] using hp
    | cons c rest => simp [scanAny, hp]
  | cons c pre ih => simp [scanAny, ih]

theorem isPrefixOf_append_self (l t : List Char) : l.isPrefixOf (l ++ t) = true := by
  induction l with
  | nil => simp [List.isPrefixOf]
  | cons c cs ih => simp [List.isPrefixOf, ih]

theorem strIncludes_of_parts (s sub : String) (pre post : List Char)
    (h : s.data = pre ++ (sub.data ++ post)) : strIncludes s sub = true := by
  unfold strIncludes
  rw [h]
  exact scanAny_of_suffix _ _ pre (isPrefixOf_append_self _ _)

theorem jsOrD_of_falsy (o : Option String) (d : String) (h : falsy o = true) : jsOrD o d = d := by
  simp [jsOrD, h]

theorem relKeep_false_of_from (rel : RelDescr) (h : strIncludes rel.from_ "Unknown" = true) :
    relKeep rel = false := by simp [relKeep, h]

theorem relKeep_false_of_to (rel : RelDescr) (h : strIncludes rel.to_ "Unknown" = true) :
    relKeep rel = false := by simp [relKeep, h]

theorem relKeep_buildRel_false (tmap cmap : List (String × String)) (r : CatalogRow)
    (h : falsy (objGet tmap (keyOf (rowGet r "FromTableID"))) = true ∨
         falsy (objGet cmap (keyOf (rowGet r "FromColumnID"))) = true ∨
         falsy (objGet tmap (keyOf (rowGet r "ToTableID"))) = true ∨
         falsy (objGet cmap (keyOf (rowGet r "ToColumnID"))) = true) :
    relKeep (buildRel tmap cmap r) = false := by
  rcases h with h | h | h | h
  · apply relKeep_false_of_from
    show strIncludes (jsOrD (objGet tmap (keyOf (rowGet r "FromTableID"))) "Unknown" ++ "[" ++
      jsOrD (objGet cmap (keyOf (rowGet r "FromColumnID"))) "Unknown" ++ "]") "Unknown" = true
    rw [jsOrD_of_falsy _ _ h]
    exact strIncludes_of_parts _ _ []
      (("[" ++ jsOrD (objGet cmap (keyOf (rowGet r "FromColumnID"))) "Unknown" ++ "]").data)
      (by simp)
  · apply relKeep_false_of_from
    show strIncludes (jsOrD (objGet tmap (keyOf (rowGet r "FromTableID"))) "Unknown" ++ "[" ++
      jsOrD (objGet cmap (keyOf (rowGet r "FromColumnID"))) "Unknown" ++ "]") "Unknown" = true
    rw [jsOrD_of_falsy _ _ h]
    exact strIncludes_of_parts _ _
      ((jsOrD (objGet tmap (keyOf (rowGet r "FromTableID"))) "Unknown" ++ "[").data)
      ("]".data) (by simp)
  · apply relKeep_false_of_to
    show strIncludes (jsOrD (objGet tmap (keyOf (rowGet r "ToTableID"))) "Unknown" ++ "[" ++
      jsOrD (objGet cmap (keyOf (rowGet r "ToColumnID"))) "Unknown" ++ "]") "Unknown" = true
    rw [jsOrD_of_falsy _ _ h]
    exact strIncludes_of_parts _ _ []
      (("[" ++ jsOrD (objGet cmap (keyOf (rowGet r "ToColumnID"))) "Unknown" ++ "]").data)
      (by simp)
  · apply relKeep_false_of_to
    show strIncludes (jsOrD (objGet tmap (keyOf (rowGet r "ToTableID"))) "Unknown" ++ "[" ++
      jsOrD (objGet cmap (keyOf (rowGet r "ToColumnID"))) "Unknown" ++ "]") "Unknown" = true
    rw [jsOrD_of_falsy _ _ h]
    exact strIncludes_of_parts _ _
      ((jsOrD (objGet tmap (keyOf (rowGet r "ToTableID"))) "Unknown" ++ "[").data)
      ("]".data) (by simp)

/-- C4: no relationship of the final snapshot has an endpoint containing
the placeholder `Unknown`, and a raw relationship row for which any of
the four foreign IDs fails to resolve through the id-to-name lookups is
dropped entirely from the snapshot. -/
theorem snapshot_relationships_no_unknown
    (tablesResult columnsResult measuresResult relationshipsResult : List CatalogRow)
    (fetchSampleData : Bool) (fetchSample : Option String → List CatalogRow) :
    (∀ rel ∈ (getSemanticModelMetadata tablesResult columnsResult measuresResult relationshipsResult
        fetchSampleData fetchSample).relationships,
      strIncludes rel.from_ "Unknown" = false ∧ strIncludes rel.to_ "Unknown" = false) ∧
    (∀ r ∈ relationshipsResult,
      (falsy (objGet (buildIdToName tablesResult tableNameOf) (keyOf (rowGet r "FromTableID"))) = true ∨
       falsy (objGet (buildIdToName columnsResult colNameOf) (keyOf (rowGet r "FromColumnID"))) = true ∨
       falsy (objGet (buildIdToName tablesResult tableNameOf) (keyOf (rowGet r "ToTableID"))) = true ∨
       falsy (objGet (buildIdToName columnsResult colNameOf) (keyOf (rowGet r "ToColumnID"))) = true) →
      buildRel (buildIdToName tablesResult tableNameOf) (buildIdToName columnsResult colNameOf) r ∉
        (getSemanticModelMetadata tablesResult columnsResult measuresResult relationshipsResult
          fetchSampleData fetchSample).relationships) := by
  constructor
  · intro rel hrel
    have hkeep : relKeep rel = true := (List.mem_filter.mp hrel).2
    have h1 := hkeep
    simp only [relKeep, Bool.and_eq_true, Bool.not_eq_true'] at h1
    exact h1
  · intro r _ h hmem
    have hkeep : relKeep (buildRel (buildIdToName tablesResult tableNameOf)
        (buildIdToName columnsResult colNameOf) r) = true := (List.mem_filter.mp hmem).2
    rw [relKeep_buildRel_false _ _ _ h] at hkeep
    exact Bool.false_ne_true hkeep

/-- C4 witness: a catalog with one resolvable relationship (kept, free of
the placeholder) and one with an unresolvable from-table (dropped). -/
theorem snapshot_relationships_no_unknown_witness :
    (strIncludes "T1[C1]" "Unknown" = false ∧ strIncludes "T1[C1]" "Unknown" = false) ∧
    buildRel (buildIdToName [[("ID", "1"), ("Name", "T1")]] tableNameOf)
        (buildIdToName [[("ID", "10"), ("TableID", "1"), ("ExplicitName", "C1")]] colNameOf)
        [[("RelationshipName", "r2"), ("FromTableID", "9"), ("FromColumnID", "10"),
          ("ToTableID", "1"), ("ToColumnID", "10")]].head! ∉
      (getSemanticModelMetadata [[("ID", "1"), ("Name", "T1")]]
        [[("ID", "10"), ("TableID", "1"), ("ExplicitName", "C1")]] []
        [[("RelationshipName", "r1"), ("FromTableID", "1"), ("FromColumnID", "10"),
          ("ToTableID", "1"), ("ToColumnID", "10")],
         [("RelationshipName", "r2"), ("FromTableID", "9"), ("FromColumnID", "10"),
          ("ToTableID", "1"), ("ToColumnID", "10")]] false (fun _ => [])).relationships := by
  constructor
  · exact (snapshot_relationships_no_unknown [[("ID", "1"), ("Name", "T1")]]
      [[("ID", "10"), ("TableID", "1"), ("ExplicitName", "C1")]] []
      [[("RelationshipName", "r1"), ("FromTableID", "1"), ("FromColumnID", "10"),
        ("ToTableID", "1"), ("ToColumnID", "10")],
       [("RelationshipName", "r2"), ("FromTableID", "9"), ("FromColumnID", "10"),
        ("ToTableID", "1"), ("ToColumnID", "10")]] false (fun _ => [])).1
      { name := "r1", from_ := "T1[C1]", to_ := "T1[C1]" } (by decide)
  · exact (snapshot_relationships_no_unknown [[("ID", "1"), ("Name", "T1")]]
      [[("ID", "10"), ("TableID", "1"), ("ExplicitName", "C1")]] []
      [[("RelationshipName", "r1"), ("FromTableID", "1"), ("FromColumnID", "10"),
        ("ToTableID", "1"), ("ToColumnID", "10")],
       [("RelationshipName", "r2"), ("FromTableID", "9"), ("FromColumnID", "10"),
        ("ToTableID", "1"), ("ToColumnID", "10")]] false (fun _ => [])).2
      [("RelationshipName", "r2"), ("FromTableID", "9"), ("FromColumnID", "10"),
        ("ToTableID", "1"), ("ToColumnID", "10")] (by decide) (by decide)

/-- C7 (amended): the table, measure, relationship and
tables-with-samples counts of the summary equal the sizes of the final
synthesized structures, while `totalColumns` is the raw column-catalog
row count (not a quantity of the final structures). -/
theorem snapshot_summary_counts
    (tablesResult columnsResult measuresResult relationshipsResult : List CatalogRow)
    (fetchSampleData : Bool) (fetchSample : Option String → List CatalogRow) :
    (getSemanticModelMetadata tablesResult columnsResult measuresResult relationshipsResult
        fetchSampleData fetchSample).summary.tableCount =
      (getSemanticModelMetadata tablesResult columnsResult measuresResult relationshipsResult
        fetchSampleData fetchSample).tables.length ∧
    (getSemanticModelMetadata tablesResult columnsResult measuresResult relationshipsResult
        fetchSampleData fetchSample).summary.measureCount =
      (getSemanticModelMetadata tablesResult columnsResult measuresResult relationshipsResult
        fetchSampleData fetchSample).measures.length ∧
    (getSemanticModelMetadata tablesResult columnsResult measuresResult relationshipsResult
        fetchSampleData fetchSample).summary.relationshipCount =
      (getSemanticModelMetadata tablesResult columnsResult measuresResult relationshipsResult
        fetchSampleData fetchSample).relationships.length ∧
    (getSemanticModelMetadata tablesResult columnsResult measuresResult relationshipsResult
        fetchSampleData fetchSample).summary.tablesWithSampleData =
      (getSemanticModelMetadata tablesResult columnsResult measuresResult relationshipsResult
        fetchSampleData fetchSample).sampleData.length ∧
    (getSemanticModelMetadata tablesResult columnsResult measuresResult relationshipsResult
        fetchSampleData fetchSample).summary.totalColumns = columnsResult.length :=
  ⟨rfl, rfl, rfl, rfl, rfl⟩

/-- C7 counterexample: a column-catalog row that contributes nothing to
the final structures still counts — `totalColumns` is 1 although the
synthesized tables, measures, relationships and samples are all empty, so
the column count is not computed from the final structures. -/
theorem snapshot_summary_counts_counterexample :
    (getSemanticModelMetadata [] [[("foo", "bar")]] [] [] false (fun _ => [])).summary.totalColumns = 1 ∧
    (getSemanticModelMetadata [] [[("foo", "bar")]] [] [] false (fun _ => [])).tables = [] ∧
    (getSemanticModelMetadata [] [[("foo", "bar")]] [] [] false (fun _ => [])).measures = [] ∧
    (getSemanticModelMetadata [] [[("foo", "bar")]] [] [] false (fun _ => [])).relationships = [] ∧
    (getSemanticModelMetadata [] [[("foo", "bar")]] [] [] false (fun _ => [])).sampleData = [] := by
  decide

/-- C1 counterexample: `"SELECT 1"` has no row-limiting construct, no
evaluate marker and no `$SYSTEM` marker (and is its own trimmed form),
yet `validate` returns `modified = false` and echoes the query — the
wrap only happens when the query also passes validation, which a SELECT
statement does not, so the claim as stated is false. -/
theorem validate_autowrap_counterexample :
    hasTopNTest "SELECT 1" = false ∧
    startsWithCI "EVALUATE" "SELECT 1" = false ∧
    strIncludes (upperS "SELECT 1") "$SYSTEM" = false ∧
    jsTrim ("SELECT 1").data = ("SELECT 1").data ∧
    (validate defaultConfig (some "SELECT 1")).isValid = false ∧
    (validate defaultConfig (some "SELECT 1")).modified = false ∧
    (validate defaultConfig (some "SELECT 1")).modifiedQuery = some "SELECT 1" := by
  decide

/-- C1 (amended): for every query text whose trimmed form has no
row-limiting construct (`TOPN(` / `TOP n`), no leading evaluate marker
and no `$SYSTEM` marker, and which in addition passes validation
(`isValid = true` — the condition the original claim omitted),
`validate` returns `modified = true`, wraps the trimmed text in
`TOPN(maxRows, …)` and appends the explanatory warning; at
`maxRows = 10000` and query `"'T'"` this yields `TOPN(10000, 'T')`. -/
theorem validate_autowrap_amended (cfg : ValidatorConfig) (q : String)
    (h1 : hasTopNTest ⟨jsTrim q.data⟩ = false)
    (h2 : startsWithCI "EVALUATE" ⟨jsTrim q.data⟩ = false)
    (h3 : strIncludes (upperS ⟨jsTrim q.data⟩) "$SYSTEM" = false)
    (h4 : (validate cfg (some q)).isValid = true) :
    (validate cfg (some q)).modified = true ∧
    (validate cfg (some q)).modifiedQuery =
      some ("TOPN(" ++ toString cfg.maxRows ++ ", " ++ (⟨jsTrim q.data⟩ : String) ++ ")") ∧
    (validate cfg (some q)).warnings.getLast? =
      some ("Automatically limited to " ++ toString cfg.maxRows ++ " rows for safety.") := by
  by_cases hq : q = ""
  · exfalso; simp [validate, hq] at h4
  by_cases ht : (⟨jsTrim q.data⟩ : String) = ""
  · exfalso; simp [validate, hq, ht] at h4
  simp only [validate, hq, ht, if_false, ite_false] at h4 ⊢
  refine ⟨?_, ?_, ?_⟩
  · simp [h1, h2, h3, h4]
  · simp [h1, h2, h3, h4]
  · simp [h1, h2, h3, h4]
    rw [← List.cons_append, List.getLast?_concat]

/-- C1 witness: the scenario of the claim — `validate("'T'")` with the
default configuration (maxRows 10000) yields modified=true and
`TOPN(10000, 'T')`. -/
theorem validate_autowrap_amended_witness :
    (validate defaultConfig (some "'T'")).modified = true ∧
    (validate defaultConfig (some "'T'")).modifiedQuery = some "TOPN(10000, 'T')" := by
  have h := validate_autowrap_amended defaultConfig "'T'"
    (by decide) (by decide) (by decide) (by decide)
  exact ⟨h.1, h.2.1.trans (congrArg some (by decide))⟩

theorem collapseSemis_head (rest : List Char) : ∀ b, (collapseSemis (b :: rest)).head? = some b := by
  induction rest with
  | nil => intro b; rfl
  | cons c rs ih =>
    intro b
    show (if b = ';' && c = ';' then collapseSemis (c :: rs) else b :: collapseSemis (c :: rs)).head? = some b
    by_cases hb : (b = ';' && c = ';') = true
    · rw [if_pos hb, ih c]
      rw [Bool.and_eq_true, decide_eq_true_eq, decide_eq_true_eq] at hb
      rw [hb.1, hb.2]
    · rw [if_neg hb]; rfl

theorem noAdjSemis_collapseSemis (l : List Char) : noAdjSemis (collapseSemis l) = true := by
  induction l using collapseSemis.induct with
  | case1 => rfl
  | case2 c => rfl
  | case3 a b rest h ih =>
    show noAdjSemis (if a = ';' && b = ';' then collapseSemis (b :: rest)
      else a :: collapseSemis (b :: rest)) = true
    rw [if_pos h]
    exact ih
  | case4 a b rest h ih =>
    show noAdjSemis (if a = ';' && b = ';' then collapseSemis (b :: rest)
      else a :: collapseSemis (b :: rest)) = true
    rw [if_neg h]
    have hh := collapseSemis_head rest b
    cases e : collapseSemis (b :: rest) with
    | nil => rw [e] at hh; simp at hh
    | cons b' t =>
      rw [e] at hh ih
      rw [List.head?_cons, Option.some_inj] at hh
      show (!(a = ';' && b' = ';') && noAdjSemis (b' :: t)) = true
      rw [Bool.and_eq_true, Bool.not_eq_true']
      have hfalse : (a = ';' && b = ';') = false := by
        cases hab : (a = ';' && b = ';') with
        | false => rfl
        | true => exact absurd hab h
      rw [hh] at ih ⊢
      rw [hfalse]
      exact ⟨rfl, ih⟩

theorem collapseSemis_of_noAdj (l : List Char) (h : noAdjSemis l = true) : collapseSemis l = l := by
  induction l using collapseSemis.induct with
  | case1 => rfl
  | case2 c => rfl
  | case3 a b rest hc ih =>
    exfalso
    have : noAdjSemis (a :: b :: rest) = (!(a = ';' && b = ';') && noAdjSemis (b :: rest)) := rfl
    rw [this, Bool.and_eq_true, Bool.not_eq_true'] at h
    rw [h.1] at hc
    exact Bool.false_ne_true hc
  | case4 a b rest hc ih =>
    have : noAdjSemis (a :: b :: rest) = (!(a = ';' && b = ';') && noAdjSemis (b :: rest)) := rfl
    rw [this, Bool.and_eq_true, Bool.not_eq_true'] at h
    show (if a = ';' && b = ';' then collapseSemis (b :: rest)
      else a :: collapseSemis (b :: rest)) = a :: b :: rest
    rw [if_neg hc, ih h.2]

theorem collapseSemis_subset (l : List Char) : ∀ c ∈ collapseSemis l, c ∈ l := by
  induction l using collapseSemis.induct with
  | case1 => intro c hc; exact absurd hc (by simp [collapseSemis])
  | case2 a => intro c hc; exact hc
  | case3 a b rest h ih =>
    intro c hc
    show c ∈ a :: b :: rest
    have : collapseSemis (a :: b :: rest) = collapseSemis (b :: rest) := by
      show (if a = ';' && b = ';' then collapseSemis (b :: rest)
        else a :: collapseSemis (b :: rest)) = collapseSemis (b :: rest)
      rw [if_pos h]
    rw [this] at hc
    exact List.mem_cons_of_mem a (ih c hc)
  | case4 a b rest h ih =>
    intro c hc
    have : collapseSemis (a :: b :: rest) = a :: collapseSemis (b :: rest) := by
      show (if a = ';' && b = ';' then collapseSemis (b :: rest)
        else a :: collapseSemis (b :: rest)) = a :: collapseSemis (b :: rest)
      rw [if_neg h]
    rw [this] at hc
    rcases List.mem_cons.mp hc with hc | hc
    · exact hc ▸ List.mem_cons_self a _
    · exact List.mem_cons_of_mem a (ih c hc)

theorem noAdjSemis_append_left (t r : List Char) (h : noAdjSemis (t ++ r) = true) :
    noAdjSemis t = true := by
  induction t with
  | nil => rfl
  | cons c ts ih =>
    cases ts with
    | nil => rfl
    | cons c2 ts2 =>
      have hc : (!(c = ';' && c2 = ';') && noAdjSemis (c2 :: (ts2 ++ r))) = true := h
      rw [Bool.and_eq_true] at hc
      show (!(c = ';' && c2 = ';') && noAdjSemis (c2 :: ts2)) = true
      rw [Bool.and_eq_true]
      exact ⟨hc.1, ih hc.2⟩

theorem noAdjSemis_of_prefix (t l : List Char) (hp : t <+: l) (hl : noAdjSemis l = true) :
    noAdjSemis t = true := by
  rcases hp with ⟨r, rfl⟩
  exact noAdjSemis_append_left t r hl

theorem removeTrailingSemis_isPre (l : List Char) : removeTrailingSemis l <+: l := by
  unfold removeTrailingSemis
  by_cases h : ((l.reverse.dropWhile isWS).head? = some ';')
  · rw [if_pos h]
    have h1 : (l.reverse.dropWhile isWS).dropWhile (fun c => c = ';') <:+ l.reverse :=
      (List.dropWhile_suffix _).trans (List.dropWhile_suffix _)
    have h2 := List.reverse_prefix.mpr h1
    rwa [List.reverse_reverse] at h2
  · rw [if_neg h]

theorem head?_dropWhile_ne (p : Char → Bool) (l : List Char) :
    ∀ c, (l.dropWhile p).head? = some c → p c = false := by
  induction l with
  | nil => intro c h; exact absurd h (by simp)
  | cons a t ih =>
    intro c h
    rw [List.dropWhile_cons] at h
    by_cases hp : p a = true
    · rw [if_pos hp] at h
      exact ih c h
    · rw [if_neg hp] at h
      rw [List.head?_cons, Option.some_inj] at h
      subst h
      exact Bool.not_eq_true _ ▸ Bool.of_not_eq_true hp

theorem removeTrailingSemis_getLast (l : List Char) :
    (removeTrailingSemis l).getLast? ≠ some ';' := by
  unfold removeTrailingSemis
  by_cases h : ((l.reverse.dropWhile isWS).head? = some ';')
  · rw [if_pos h]
    intro hc
    rw [List.getLast?_reverse] at hc
    have := head?_dropWhile_ne (fun c => c = ';') _ ';' hc
    simp at this
  · rw [if_neg h]
    intro hc
    apply h
    rw [← List.head?_reverse] at hc
    cases e : l.reverse with
    | nil => rw [e] at hc; exact absurd hc (by simp)
    | cons a t =>
      rw [e] at hc
      rw [List.head?_cons, Option.some_inj] at hc
      rw [hc, List.dropWhile_cons, if_neg (by decide)]
      rfl

theorem dropWhile_eq_self_of_none (p : Char → Bool) (l : List Char)
    (h : ∀ c ∈ l, p c = false) : l.dropWhile p = l := by
  cases l with
  | nil => rfl
  | cons a t =>
    rw [List.dropWhile_cons, if_neg (by simp [h a (List.mem_cons_self a t)])]

theorem jsTrim_eq_self (l : List Char) (h : ∀ c ∈ l, isWS c = false) : jsTrim l = l := by
  unfold jsTrim
  rw [dropWhile_eq_self_of_none _ _ h]
  rw [dropWhile_eq_self_of_none _ _ (fun c hc => h c (List.mem_reverse.mp hc))]
  exact List.reverse_reverse l

/-- C6 counterexample: `sanitize` is not idempotent — the trailing-run
removal in `"; ;"` leaves the whitespace that preceded the removed
semicolon, and a second pass then erases the rest. -/
theorem sanitize_not_idempotent : sanitize "; ;" = "; " ∧ sanitize "; " = "" ∧
    sanitize (sanitize "; ;") ≠ sanitize "; ;" := by
  decide

/-- C6 (amended): `sanitize` collapses every run of consecutive
semicolons (its output never has two adjacent semicolons) and removes
trailing terminators (its output never ends in a semicolon), and it is
idempotent on every query text containing no whitespace character — but
not on all texts, the removal of a trailing semicolon run being able to
expose fresh trailing whitespace. -/
theorem sanitize_properties (q : String) :
    noAdjSemis (sanitize q).data = true ∧
    (sanitize q).data.getLast? ≠ some ';' ∧
    ((∀ c ∈ q.data, isWS c = false) → sanitize (sanitize q) = sanitize q) := by
  by_cases hq : q = ""
  · subst hq
    exact ⟨rfl, by decide, fun _ => rfl⟩
  have hdata : (sanitize q).data = removeTrailingSemis (collapseSemis (jsTrim q.data)) := by
    unfold sanitize
    rw [if_neg hq]
  refine ⟨?_, ?_, ?_⟩
  · rw [hdata]
    exact noAdjSemis_of_prefix _ _ (removeTrailingSemis_isPre _) (noAdjSemis_collapseSemis _)
  · rw [hdata]
    exact removeTrailingSemis_getLast _
  · intro hws
    by_cases hs : sanitize q = ""
    · rw [hs]
      simp [sanitize]
    have hwf : ∀ c ∈ (sanitize q).data, isWS c = false := by
      intro c hc
      rw [hdata] at hc
      have hc2 := (removeTrailingSemis_isPre _).subset hc
      have hc3 := collapseSemis_subset _ c hc2
      rw [jsTrim_eq_self _ hws] at hc3
      exact hws c hc3
    have hna : noAdjSemis (sanitize q).data = true := by
      rw [hdata]
      exact noAdjSemis_of_prefix _ _ (removeTrailingSemis_isPre _) (noAdjSemis_collapseSemis _)
    have hlast : (sanitize q).data.getLast? ≠ some ';' := by
      rw [hdata]
      exact removeTrailingSemis_getLast _
    show (if sanitize q = "" then "" else
      (⟨removeTrailingSemis (collapseSemis (jsTrim (sanitize q).data))⟩ : String)) = sanitize q
    rw [if_neg hs]
    rw [jsTrim_eq_self _ hwf, collapseSemis_of_noAdj _ hna]
    have hrt : removeTrailingSemis (sanitize q).data = (sanitize q).data := by
      show (if ((sanitize q).data.reverse.dropWhile isWS).head? = some ';' then
          (((sanitize q).data.reverse.dropWhile isWS).dropWhile (fun c => c = ';')).reverse
        else (sanitize q).data) = (sanitize q).data
      rw [dropWhile_eq_self_of_none isWS _ (fun c hc => hwf c (List.mem_reverse.mp hc))]
      rw [if_neg (by rw [List.head?_reverse]; exact hlast)]
    rw [hrt]

/-- C6 witness: the amended properties instantiated at a whitespace-free
query with semicolon runs. -/
theorem sanitize_properties_witness :
    noAdjSemis (sanitize "a;;b;;").data = true ∧
    sanitize (sanitize "a;;b;;") = sanitize "a;;b;;" := by
  exact ⟨(sanitize_properties "a;;b;;").1, (sanitize_properties "a;;b;;").2.2 (by decide)⟩

theorem replaceStr_nil (pat repl : List Char) : replaceStr pat repl [] = [] :=
  replaceStr.eq_1 pat repl

theorem replaceStr_cons_pos (pat repl : List Char) (c : Char) (rest : List Char)
    (h : pat.isPrefixOf (c :: rest) = true) :
    replaceStr pat repl (c :: rest) =
      repl ++ replaceStr pat repl (rest.drop (pat.length - 1)) := by
  rw [replaceStr.eq_2, if_pos h]

theorem replaceStr_cons_neg (pat repl : List Char) (c : Char) (rest : List Char)
    (h : pat.isPrefixOf (c :: rest) = false) :
    replaceStr pat repl (c :: rest) = c :: replaceStr pat repl rest := by
  rw [replaceStr.eq_2, if_neg (by simp [h])]

theorem isPrefixOf_cons_ne (p : Char) (pt : List Char) (c : Char) (s : List Char) (h : c ≠ p) :
    (p :: pt).isPrefixOf (c :: s) = false := by
  show (p == c && pt.isPrefixOf s) = false
  rw [beq_eq_false_iff_ne.mpr (Ne.symm h), Bool.false_and]

theorem replaceStr_skip_one (p : Char) (pt repl : List Char) (c : Char) (s : List Char)
    (h : c ≠ p) :
    replaceStr (p :: pt) repl (c :: s) = c :: replaceStr (p :: pt) repl s :=
  replaceStr_cons_neg _ _ _ _ (isPrefixOf_cons_ne p pt c s h)

theorem replaceStr_skip_seg (p : Char) (pt repl : List Char) (l s : List Char)
    (h : ∀ c ∈ l, c ≠ p) :
    replaceStr (p :: pt) repl (l ++ s) = l ++ replaceStr (p :: pt) repl s := by
  induction l with
  | nil => rfl
  | cons c t ih =>
    rw [List.cons_append, replaceStr_skip_one p pt repl c _ (h c (List.mem_cons_self c t))]
    rw [ih (fun x hx => h x (List.mem_cons_of_mem c hx))]
    rfl

theorem replaceStr_match (p : Char) (pt repl s : List Char) :
    replaceStr (p :: pt) repl ((p :: pt) ++ s) = repl ++ replaceStr (p :: pt) repl s := by
  rw [List.cons_append, replaceStr_cons_pos _ _ _ _ (by
    rw [← List.cons_append]
    exact isPrefixOf_append_self (p :: pt) s)]
  congr 1
  have hlen : (p :: pt).length - 1 = pt.length := by simp
  rw [hlen, List.drop_left]

theorem replaceStr_block_one (p a b : Char) (pt bt repl s : List Char)
    (hab : a ≠ b) (hbt : ∀ c ∈ b :: bt, c ≠ p) :
    replaceStr (p :: a :: pt) repl ((p :: b :: bt) ++ s) =
      (p :: b :: bt) ++ replaceStr (p :: a :: pt) repl s := by
  rw [List.cons_append, replaceStr_cons_neg _ _ _ _ (by
    show (p == p && (a :: pt).isPrefixOf (b :: (bt ++ s))) = false
    rw [beq_self_eq_true, Bool.true_and]
    exact isPrefixOf_cons_ne a pt b _ (Ne.symm hab))]
  rw [show b :: bt ++ s = (b :: bt) ++ s from rfl,
    replaceStr_skip_seg p (a :: pt) repl (b :: bt) s hbt]
  rfl

theorem replaceStr_block_two (p a q2 : Char) (pt : List Char) (m : Char) (bt repl s : List Char)
    (hqm : q2 ≠ m) (hbt : ∀ c ∈ a :: m :: bt, c ≠ p) :
    replaceStr (p :: a :: q2 :: pt) repl ((p :: a :: m :: bt) ++ s) =
      (p :: a :: m :: bt) ++ replaceStr (p :: a :: q2 :: pt) repl s := by
  rw [List.cons_append, replaceStr_cons_neg _ _ _ _ (by
    show (p == p && (a == a && (q2 :: pt).isPrefixOf (m :: (bt ++ s)))) = false
    rw [beq_self_eq_true, Bool.true_and, beq_self_eq_true, Bool.true_and]
    exact isPrefixOf_cons_ne q2 pt m _ (Ne.symm hqm))]
  rw [show a :: m :: bt ++ s = (a :: m :: bt) ++ s from rfl,
    replaceStr_skip_seg p (a :: q2 :: pt) repl (a :: m :: bt) s hbt]
  rfl

theorem encodeWith_append (f : Char → List Char) (l1 l2 : List Char) :
    encodeWith f (l1 ++ l2) = encodeWith f l1 ++ encodeWith f l2 := by
  induction l1 with
  | nil => rfl
  | cons c t ih =>
    show f c ++ encodeWith f (t ++ l2) = (f c ++ encodeWith f t) ++ encodeWith f l2
    rw [ih, List.append_assoc]

theorem encodeWith_comp (f g : Char → List Char) (s : List Char) :
    encodeWith g (encodeWith f s) = encodeWith (fun c => encodeWith g (f c)) s := by
  induction s with
  | nil => rfl
  | cons c t ih =>
    show encodeWith g (f c ++ encodeWith f t) = encodeWith g (f c) ++ encodeWith (fun c => encodeWith g (f c)) t
    rw [encodeWith_append, ih]

theorem encodeWith_congr (f g : Char → List Char) (h : ∀ c, f c = g c) (s : List Char) :
    encodeWith f s = encodeWith g s := by
  induction s with
  | nil => rfl
  | cons c t ih =>
    show f c ++ encodeWith f t = g c ++ encodeWith g t
    rw [h, ih]

theorem replaceStr_single (a : Char) (r : List Char) (s : List Char) :
    replaceStr [a] r s = encodeWith (fun c => if c = a then r else [c]) s := by
  induction s with
  | nil => exact replaceStr_nil _ _
  | cons c t ih =>
    by_cases h : c = a
    · subst h
      rw [replaceStr_cons_pos _ _ _ _ (by
        show (c == c && List.isPrefixOf [] t) = true
        rw [beq_self_eq_true, Bool.true_and]
        simp [List.isPrefixOf])]
      show r ++ replaceStr [c] r (t.drop 0) = (if c = c then r else [c]) ++ encodeWith _ t
      rw [List.drop_zero, ih, if_pos rfl]
    · rw [replaceStr_skip_one a [] r c t h]
      show c :: replaceStr [a] r t = (if c = a then r else [c]) ++ encodeWith _ t
      rw [ih, if_neg h]
      rfl

theorem escChars_eq (s : List Char) : escChars s = encodeWith (encUpto 0) s := by
  unfold escChars
  rw [replaceStr_single, replaceStr_single, replaceStr_single, replaceStr_single, replaceStr_single]
  rw [encodeWith_comp, encodeWith_comp, encodeWith_comp, encodeWith_comp]
  apply encodeWith_congr
  intro c
  by_cases h1 : c = '&'
  · subst h1; rfl
  by_cases h2 : c = '<'
  · subst h2; rfl
  by_cases h3 : c = '>'
  · subst h3; rfl
  by_cases h4 : c = '"'
  · subst h4; rfl
  by_cases h5 : c = '\''
  · subst h5; rfl
  simp [encodeWith, encUpto, h1, h2, h3, h4, h5]

theorem unesc_apos_amp (s : List Char) :
    replaceStr entApos ['\''] (entAmp ++ s) = entAmp ++ replaceStr entApos ['\''] s :=
  replaceStr_block_two '&' 'a' 'p' ['o', 's', ';'] 'm' ['p', ';'] ['\''] s
    (by decide) (by decide)

theorem unesc_apos_lt (s : List Char) :
    replaceStr entApos ['\''] (entLt ++ s) = entLt ++ replaceStr entApos ['\''] s :=
  replaceStr_block_one '&' 'a' 'l' ['p', 'o', 's', ';'] ['t', ';'] ['\''] s
    (by decide) (by decide)

theorem unesc_apos_gt (s : List Char) :
    replaceStr entApos ['\''] (entGt ++ s) = entGt ++ replaceStr entApos ['\''] s :=
  replaceStr_block_one '&' 'a' 'g' ['p', 'o', 's', ';'] ['t', ';'] ['\''] s
    (by decide) (by decide)

theorem unesc_apos_quot (s : List Char) :
    replaceStr entApos ['\''] (entQuot ++ s) = entQuot ++ replaceStr entApos ['\''] s :=
  replaceStr_block_one '&' 'a' 'q' ['p', 'o', 's', ';'] ['u', 'o', 't', ';'] ['\''] s
    (by decide) (by decide)

theorem unesc_apos_self (s : List Char) :
    replaceStr entApos ['\''] (entApos ++ s) = ['\''] ++ replaceStr entApos ['\''] s :=
  replaceStr_match '&' ['a', 'p', 'o', 's', ';'] ['\''] s

theorem unesc_apos_skip (c : Char) (s : List Char) (h : c ≠ '&') :
    replaceStr entApos ['\''] (c :: s) = c :: replaceStr entApos ['\''] s :=
  replaceStr_skip_one '&' ['a', 'p', 'o', 's', ';'] ['\''] c s h

theorem unesc_quot_amp (s : List Char) :
    replaceStr entQuot ['"'] (entAmp ++ s) = entAmp ++ replaceStr entQuot ['"'] s :=
  replaceStr_block_one '&' 'q' 'a' ['u', 'o', 't', ';'] ['m', 'p', ';'] ['"'] s
    (by decide) (by decide)

theorem unesc_quot_lt (s : List Char) :
    replaceStr entQuot ['"'] (entLt ++ s) = entLt ++ replaceStr entQuot ['"'] s :=
  replaceStr_block_one '&' 'q' 'l' ['u', 'o', 't', ';'] ['t', ';'] ['"'] s
    (by decide) (by decide)

theorem unesc_quot_gt (s : List Char) :
    replaceStr entQuot ['"'] (entGt ++ s) = entGt ++ replaceStr entQuot ['"'] s :=
  replaceStr_block_one '&' 'q' 'g' ['u', 'o', 't', ';'] ['t', ';'] ['"'] s
    (by decide) (by decide)

theorem unesc_quot_self (s : List Char) :
    replaceStr entQuot ['"'] (entQuot ++ s) = ['"'] ++ replaceStr entQuot ['"'] s :=
  replaceStr_match '&' ['q', 'u', 'o', 't', ';'] ['"'] s

theorem unesc_quot_skip (c : Char) (s : List Char) (h : c ≠ '&') :
    replaceStr entQuot ['"'] (c :: s) = c :: replaceStr entQuot ['"'] s :=
  replaceStr_skip_one '&' ['q', 'u', 'o', 't', ';'] ['"'] c s h

theorem unesc_gt_amp (s : List Char) :
    replaceStr entGt ['>'] (entAmp ++ s) = entAmp ++ replaceStr entGt ['>'] s :=
  replaceStr_block_one '&' 'g' 'a' ['t', ';'] ['m', 'p', ';'] ['>'] s
    (by decide) (by decide)

theorem unesc_gt_lt (s : List Char) :
    replaceStr entGt ['>'] (entLt ++ s) = entLt ++ replaceStr entGt ['>'] s :=
  replaceStr_block_one '&' 'g' 'l' ['t', ';'] ['t', ';'] ['>'] s
    (by decide) (by decide)

theorem unesc_gt_self (s : List Char) :
    replaceStr entGt ['>'] (entGt ++ s) = ['>'] ++ replaceStr entGt ['>'] s :=
  replaceStr_match '&' ['g', 't', ';'] ['>'] s

theorem unesc_gt_skip (c : Char) (s : List Char) (h : c ≠ '&') :
    replaceStr entGt ['>'] (c :: s) = c :: replaceStr entGt ['>'] s :=
  replaceStr_skip_one '&' ['g', 't', ';'] ['>'] c s h

theorem unesc_lt_amp (s : List Char) :
    replaceStr entLt ['<'] (entAmp ++ s) = entAmp ++ replaceStr entLt ['<'] s :=
  replaceStr_block_one '&' 'l' 'a' ['t', ';'] ['m', 'p', ';'] ['<'] s
    (by decide) (by decide)

theorem unesc_lt_self (s : List Char) :
    replaceStr entLt ['<'] (entLt ++ s) = ['<'] ++ replaceStr entLt ['<'] s :=
  replaceStr_match '&' ['l', 't', ';'] ['<'] s

theorem unesc_lt_skip (c : Char) (s : List Char) (h : c ≠ '&') :
    replaceStr entLt ['<'] (c :: s) = c :: replaceStr entLt ['<'] s :=
  replaceStr_skip_one '&' ['l', 't', ';'] ['<'] c s h

theorem unesc_amp_self (s : List Char) :
    replaceStr entAmp ['&'] (entAmp ++ s) = ['&'] ++ replaceStr entAmp ['&'] s :=
  replaceStr_match '&' ['a', 'm', 'p', ';'] ['&'] s

theorem unesc_amp_skip (c : Char) (s : List Char) (h : c ≠ '&') :
    replaceStr entAmp ['&'] (c :: s) = c :: replaceStr entAmp ['&'] s :=
  replaceStr_skip_one '&' ['a', 'm', 'p', ';'] ['&'] c s h

theorem unesc_stage1 (s : List Char) :
    replaceStr entApos ['\''] (encodeWith (encUpto 0) s) = encodeWith (encUpto 1) s := by
  induction s with
  | nil => exact replaceStr_nil _ _
  | cons c t ih =>
    show replaceStr entApos ['\''] (encUpto 0 c ++ encodeWith (encUpto 0) t) =
      encUpto 1 c ++ encodeWith (encUpto 1) t
    by_cases h1 : c = '&'
    · subst h1
      rw [show encUpto 0 '&' = entAmp from rfl, show encUpto 1 '&' = entAmp from rfl,
        unesc_apos_amp, ih]
    by_cases h2 : c = '<'
    · subst h2
      rw [show encUpto 0 '<' = entLt from rfl, show encUpto 1 '<' = entLt from rfl,
        unesc_apos_lt, ih]
    by_cases h3 : c = '>'
    · subst h3
      rw [show encUpto 0 '>' = entGt from rfl, show encUpto 1 '>' = entGt from rfl,
        unesc_apos_gt, ih]
    by_cases h4 : c = '"'
    · subst h4
      rw [show encUpto 0 '"' = entQuot from rfl, show encUpto 1 '"' = entQuot from rfl,
        unesc_apos_quot, ih]
    by_cases h5 : c = '\''
    · subst h5
      rw [show encUpto 0 '\'' = entApos from rfl, show encUpto 1 '\'' = ['\''] from rfl,
        unesc_apos_self, ih]
    have e0 : encUpto 0 c = [c] := by simp [encUpto, h1, h2, h3, h4, h5]
    have e1 : encUpto 1 c = [c] := by simp [encUpto, h1, h2, h3, h4, h5]
    rw [e0, e1, List.singleton_append, List.singleton_append, unesc_apos_skip c _ h1, ih]

theorem unesc_stage2 (s : List Char) :
    replaceStr entQuot ['"'] (encodeWith (encUpto 1) s) = encodeWith (encUpto 2) s := by
  induction s with
  | nil => exact replaceStr_nil _ _
  | cons c t ih =>
    show replaceStr entQuot ['"'] (encUpto 1 c ++ encodeWith (encUpto 1) t) =
      encUpto 2 c ++ encodeWith (encUpto 2) t
    by_cases h1 : c = '&'
    · subst h1
      rw [show encUpto 1 '&' = entAmp from rfl, show encUpto 2 '&' = entAmp from rfl,
        unesc_quot_amp, ih]
    by_cases h2 : c = '<'
    · subst h2
      rw [show encUpto 1 '<' = entLt from rfl, show encUpto 2 '<' = entLt from rfl,
        unesc_quot_lt, ih]
    by_cases h3 : c = '>'
    · subst h3
      rw [show encUpto 1 '>' = entGt from rfl, show encUpto 2 '>' = entGt from rfl,
        unesc_quot_gt, ih]
    by_cases h4 : c = '"'
    · subst h4
      rw [show encUpto 1 '"' = entQuot from rfl, show encUpto 2 '"' = ['"'] from rfl,
        unesc_quot_self, ih]
    by_cases h5 : c = '\''
    · subst h5
      rw [show encUpto 1 '\'' = ['\''] from rfl, show encUpto 2 '\'' = ['\''] from rfl,
        List.singleton_append, List.singleton_append, unesc_quot_skip _ _ (by decide), ih]
    have e0 : encUpto 1 c = [c] := by simp [encUpto, h1, h2, h3, h4, h5]
    have e1 : encUpto 2 c = [c] := by simp [encUpto, h1, h2, h3, h4, h5]
    rw [e0, e1, List.singleton_append, List.singleton_append, unesc_quot_skip c _ h1, ih]

theorem unesc_stage3 (s : List Char) :
    replaceStr entGt ['>'] (encodeWith (encUpto 2) s) = encodeWith (encUpto 3) s := by
  induction s with
  | nil => exact replaceStr_nil _ _
  | cons c t ih =>
    show replaceStr entGt ['>'] (encUpto 2 c ++ encodeWith (encUpto 2) t) =
      encUpto 3 c ++ encodeWith (encUpto 3) t
    by_cases h1 : c = '&'
    · subst h1
      rw [show encUpto 2 '&' = entAmp from rfl, show encUpto 3 '&' = entAmp from rfl,
        unesc_gt_amp, ih]
    by_cases h2 : c = '<'
    · subst h2
      rw [show encUpto 2 '<' = entLt from rfl, show encUpto 3 '<' = entLt from rfl,
        unesc_gt_lt, ih]
    by_cases h3 : c = '>'
    · subst h3
      rw [show encUpto 2 '>' = entGt from rfl, show encUpto 3 '>' = ['>'] from rfl,
        unesc_gt_self, ih]
    by_cases h4 : c = '"'
    · subst h4
      rw [show encUpto 2 '"' = ['"'] from rfl, show encUpto 3 '"' = ['"'] from rfl,
        List.singleton_append, List.singleton_append, unesc_gt_skip _ _ (by decide), ih]
    by_cases h5 : c = '\''
    · subst h5
      rw [show encUpto 2 '\'' = ['\''] from rfl, show encUpto 3 '\'' = ['\''] from rfl,
        List.singleton_append, List.singleton_append, unesc_gt_skip _ _ (by decide), ih]
    have e0 : encUpto 2 c = [c] := by simp [encUpto, h1, h2, h3, h4, h5]
    have e1 : encUpto 3 c = [c] := by simp [encUpto, h1, h2, h3, h4, h5]
    rw [e0, e1, List.singleton_append, List.singleton_append, unesc_gt_skip c _ h1, ih]

theorem unesc_stage4 (s : List Char) :
    replaceStr entLt ['<'] (encodeWith (encUpto 3) s) = encodeWith (encUpto 4) s := by
  induction s with
  | nil => exact replaceStr_nil _ _
  | cons c t ih =>
    show replaceStr entLt ['<'] (encUpto 3 c ++ encodeWith (encUpto 3) t) =
      encUpto 4 c ++ encodeWith (encUpto 4) t
    by_cases h1 : c = '&'
    · subst h1
      rw [show encUpto 3 '&' = entAmp from rfl, show encUpto 4 '&' = entAmp from rfl,
        unesc_lt_amp, ih]
    by_cases h2 : c = '<'
    · subst h2
      rw [show encUpto 3 '<' = entLt from rfl, show encUpto 4 '<' = ['<'] from rfl,
        unesc_lt_self, ih]
    by_cases h3 : c = '>'
    · subst h3
      rw [show encUpto 3 '>' = ['>'] from rfl, show encUpto 4 '>' = ['>'] from rfl,
        List.singleton_append, List.singleton_append, unesc_lt_skip _ _ (by decide), ih]
    by_cases h4 : c = '"'
    · subst h4
      rw [show encUpto 3 '"' = ['"'] from rfl, show encUpto 4 '"' = ['"'] from rfl,
        List.singleton_append, List.singleton_append, unesc_lt_skip _ _ (by decide), ih]
    by_cases h5 : c = '\''
    · subst h5
      rw [show encUpto 3 '\'' = ['\''] from rfl, show encUpto 4 '\'' = ['\''] from rfl,
        List.singleton_append, List.singleton_append, unesc_lt_skip _ _ (by decide), ih]
    have e0 : encUpto 3 c = [c] := by simp [encUpto, h1, h2, h3, h4, h5]
    have e1 : encUpto 4 c = [c] := by simp [encUpto, h1, h2, h3, h4, h5]
    rw [e0, e1, List.singleton_append, List.singleton_append, unesc_lt_skip c _ h1, ih]

theorem unesc_stage5 (s : List Char) :
    replaceStr entAmp ['&'] (encodeWith (encUpto 4) s) = encodeWith (encUpto 5) s := by
  induction s with
  | nil => exact replaceStr_nil _ _
  | cons c t ih =>
    show replaceStr entAmp ['&'] (encUpto 4 c ++ encodeWith (encUpto 4) t) =
      encUpto 5 c ++ encodeWith (encUpto 5) t
    by_cases h1 : c = '&'
    · subst h1
      rw [show encUpto 4 '&' = entAmp from rfl, show encUpto 5 '&' = ['&'] from rfl,
        unesc_amp_self, ih]
    by_cases h2 : c = '<'
    · subst h2
      rw [show encUpto 4 '<' = ['<'] from rfl, show encUpto 5 '<' = ['<'] from rfl,
        List.singleton_append, List.singleton_append, unesc_amp_skip _ _ (by decide), ih]
    by_cases h3 : c = '>'
    · subst h3
      rw [show encUpto 4 '>' = ['>'] from rfl, show encUpto 5 '>' = ['>'] from rfl,
        List.singleton_append, List.singleton_append, unesc_amp_skip _ _ (by decide), ih]
    by_cases h4 : c = '"'
    · subst h4
      rw [show encUpto 4 '"' = ['"'] from rfl, show encUpto 5 '"' = ['"'] from rfl,
        List.singleton_append, List.singleton_append, unesc_amp_skip _ _ (by decide), ih]
    by_cases h5 : c = '\''
    · subst h5
      rw [show encUpto 4 '\'' = ['\''] from rfl, show encUpto 5 '\'' = ['\''] from rfl,
        List.singleton_append, List.singleton_append, unesc_amp_skip _ _ (by decide), ih]
    have e0 : encUpto 4 c = [c] := by simp [encUpto, h1, h2, h3, h4, h5]
    have e1 : encUpto 5 c = [c] := by simp [encUpto, h1, h2, h3, h4, h5]
    rw [e0, e1, List.singleton_append, List.singleton_append, unesc_amp_skip c _ h1, ih]

theorem encodeWith_encUpto5 (s : List Char) : encodeWith (encUpto 5) s = s := by
  induction s with
  | nil => rfl
  | cons c t ih =>
    show encUpto 5 c ++ encodeWith (encUpto 5) t = c :: t
    have h5 : encUpto 5 c = [c] := by simp [encUpto]
    rw [ih, h5, List.singleton_append]

theorem unescChars_escChars (l : List Char) : unescChars (escChars l) = l := by
  rw [escChars_eq]
  unfold unescChars
  rw [unesc_stage1, unesc_stage2, unesc_stage3, unesc_stage4, unesc_stage5, encodeWith_encUpto5]

theorem escChars_ne_nil (l : List Char) (h : l ≠ []) : escChars l ≠ [] := by
  rw [escChars_eq]
  cases l with
  | nil => exact absurd rfl h
  | cons c t =>
    show encUpto 0 c ++ encodeWith (encUpto 0) t ≠ []
    intro hc
    rcases List.append_eq_nil.mp hc with ⟨h1, _⟩
    have hne : encUpto 0 c ≠ [] := by
      unfold encUpto
      split_ifs <;> simp [entAmp, entLt, entGt, entQuot, entApos]
    exact hne h1

/-- C8: XML escaping and unescaping round-trip — `escapeXml` replaces the
ampersand first and the other four special characters after, `unescapeXml`
reverses the entities with the ampersand last, and the composition is the
identity on every string. -/
theorem unescapeXml_escapeXml_roundtrip (s : String) : unescapeXml (escapeXml s) = s := by
  by_cases hs : s = ""
  · subst hs; rfl
  · rw [escapeXml, if_neg hs]
    have hdne : s.data ≠ [] := by
      intro h0
      apply hs
      cases s with
      | mk l =>
        have : l = [] := h0
        rw [this]
    have hne : (⟨escChars s.data⟩ : String) ≠ "" := fun hc =>
      escChars_ne_nil s.data hdne (congrArg String.data hc)
    rw [unescapeXml, if_neg hne]
    show (⟨unescChars (escChars s.data)⟩ : String) = s
    rw [unescChars_escChars]

end PBI
